import Mathlib

/-!
Formal model of the Minimal Notes single-page application
(`src/notes_frontend/src/App.js`).

The application is a single-threaded, event-driven React component.  We
embed it shallowly: the component state (`notes`, `search`,
`selectedNoteId`, `isCreatingNew`) becomes an explicit `AppState` record,
and every event handler becomes a pure function from state (plus the
environment inputs it reads: the current time, the random id suffix, the
result of the confirmation prompt) to state.  Timestamps are opaque
strings, exactly as the code stores `new Date().toISOString()`.
-/

/-- A note record, as built by `handleSaveNote` and round-tripped through
`localStorage`: fields `id`, `title`, `content`, `created` are strings,
`updated` is absent until the first update (modelled as `Option`). -/
structure Note where
  id : String
  title : String
  content : String
  created : String
  updated : Option String
deriving Repr, DecidableEq

/-- The `App` component's state: the `notes` list, the `search` query, the
`selectedNoteId` (nullable) and the `isCreatingNew` flag. -/
structure AppState where
  notes : List Note
  search : String
  selectedNoteId : Option String
  isCreatingNew : Bool
deriving Repr, DecidableEq

/-- The staged `{ title, content }` object the editor passes to `onSave`. -/
structure Edited where
  title : String
  content : String
deriving Repr, DecidableEq

/-- `generateId` from App.js line 18:
`Date.now().toString() + Math.random().toString(36).substr(2, 8)`.
The millisecond clock reading and the random base-36 suffix are
environment inputs, passed as arguments. -/
def generateId (nowMs : Nat) (randSuffix : String) : String :=
  toString nowMs ++ randSuffix

/-- The JavaScript WhiteSpace/LineTerminator set that
`String.prototype.trim` removes (ECMA-262): TAB..CR, SP, NBSP, Unicode
space separators, LS, PS, and ZWNBSP. -/
def isJsWhitespace (c : Char) : Bool :=
  (0x9 ≤ c.toNat && c.toNat ≤ 0xD) || c.toNat = 0x20 || c.toNat = 0xA0 ||
  c.toNat = 0x1680 || (0x2000 ≤ c.toNat && c.toNat ≤ 0x200A) ||
  c.toNat = 0x2028 || c.toNat = 0x2029 || c.toNat = 0x202F ||
  c.toNat = 0x205F || c.toNat = 0x3000 || c.toNat = 0xFEFF

/-- JavaScript `s.trim()`: drop leading and trailing whitespace. -/
def trimJs (s : String) : String :=
  ⟨((s.data.dropWhile isJsWhitespace).reverse.dropWhile
      isJsWhitespace).reverse⟩

/-- `b` occurs as a leading block of `a ++ ...`: Boolean test that the
first list starts the second. -/
def leadsList : List Char → List Char → Bool
  | [], _ => true
  | _ :: _, [] => false
  | a :: as, b :: bs => decide (a = b) && leadsList as bs

/-- Boolean test that `needle` occurs contiguously inside `haystack`. -/
def occursIn : List Char → List Char → Bool
  | needle, [] => decide (needle = [])
  | needle, h :: hs => leadsList needle (h :: hs) || occursIn needle hs

/-- JavaScript `haystack.includes(needle)`: substring containment. -/
def strIncludes (haystack needle : String) : Bool :=
  occursIn needle.data haystack.data

/-- JavaScript `s.toLowerCase()`, modelled as per-character lowercasing
(`Char.toLower` on each character of the string). -/
def toLowerJs (s : String) : String :=
  ⟨s.data.map Char.toLower⟩

/-- The spec's substring relation, stated independently of the code:
`needle` is a contiguous run inside `haystack`. -/
def SubstringOf (needle haystack : List Char) : Prop :=
  ∃ pre post, haystack = pre ++ needle ++ post

/-- `filteredNotes` from App.js lines 53-55:
`notes.filter(note => (note.title + " " + note.content).toLowerCase()
  .includes(search.toLowerCase()))`. -/
def filteredNotes (notes : List Note) (search : String) : List Note :=
  notes.filter fun note =>
    strIncludes (toLowerJs (note.title ++ " " ++ note.content))
      (toLowerJs search)

/-- `selectedNote` from App.js line 58:
`notes.find(note => note.id === selectedNoteId)`. -/
def selectedNote (st : AppState) : Option Note :=
  st.notes.find? fun note => some note.id == st.selectedNoteId

/-- `handleSearchChange` (App.js lines 63-65). -/
def handleSearchChange (st : AppState) (s : String) : AppState :=
  { st with search := s }

/-- `handleCreateNoteClick` (App.js lines 68-71). -/
def handleCreateNoteClick (st : AppState) : AppState :=
  { st with selectedNoteId := none, isCreatingNew := true }

/-- `handleSelectNote` (App.js lines 74-77). -/
def handleSelectNote (st : AppState) (noteId : String) : AppState :=
  { st with selectedNoteId := some noteId, isCreatingNew := false }

/-- `handleDeleteNote` (App.js lines 80-87).  The result of the blocking
`window.confirm` prompt is the `confirmed` argument.  On confirmation the
note list is filtered, the selection is cleared when it pointed at the
deleted id, and `isCreatingNew` is unconditionally set to `false`. -/
def handleDeleteNote (st : AppState) (noteId : String) (confirmed : Bool) :
    AppState :=
  if confirmed then
    { st with
      notes := st.notes.filter fun n => n.id != noteId
      selectedNoteId :=
        if st.selectedNoteId = some noteId then none else st.selectedNoteId
      isCreatingNew := false }
  else st

/-- `handleSaveNote` (App.js lines 90-110).  The fresh id and the ISO
timestamp that the handler reads from the environment (`generateId()`,
`new Date().toISOString()`) are passed as arguments `newId` and `now`. -/
def handleSaveNote (st : AppState) (edited : Edited) (newId now : String) :
    AppState :=
  if st.isCreatingNew then
    { st with
      notes :=
        { id := newId, title := edited.title, content := edited.content,
          created := now, updated := none } :: st.notes
      selectedNoteId := some newId
      isCreatingNew := false }
  else
    match selectedNote st with
    | some _ =>
        { st with
          notes := st.notes.map fun n =>
            if some n.id == st.selectedNoteId then
              { n with title := edited.title, content := edited.content,
                       updated := some now }
            else n }
    | none => st

/-- `handleCancelEdit` (App.js lines 113-116). -/
def handleCancelEdit (st : AppState) : AppState :=
  { st with selectedNoteId := none, isCreatingNew := false }

/-- `NoteEditor.handleSave` (App.js lines 261-268): rejects the save with
an alert when both staged fields trim to empty, otherwise trims both and
calls `onSave` (= `handleSaveNote`).  Returns the new state together with
the alert message, when one was shown. -/
def editorSave (st : AppState) (title content : String)
    (newId now : String) : AppState × Option String :=
  if trimJs title == "" && trimJs content == "" then
    (st, some "Cannot save empty note!")
  else
    (handleSaveNote st { title := trimJs title, content := trimJs content }
      newId now, none)

/-- The ids produced by a sequence of calls to `generateId`, one call per
environment reading (millisecond clock value, random base-36 suffix). -/
def idsOf (calls : List (Nat × String)) : List String :=
  calls.map fun p => generateId p.1 p.2

/-- The user events the rendered UI can emit: typing in the search box,
clicking the add button, clicking the i-th rendered (filtered) list item,
clicking the delete button on the i-th rendered item (together with the
confirmation prompt's answer), pressing save in the editor (with the
staged fields and the environment's fresh id and timestamp), and
cancelling the editor. -/
inductive UIEvent where
  | searchChange (s : String)
  | createClick
  | selectItem (i : Nat)
  | deleteItem (i : Nat) (confirmed : Bool)
  | saveClick (title content newId now : String)
  | cancelClick

/-- One step of the UI: dispatch an event to the handler the rendered
markup wires it to.  List items exist only for notes in `filteredNotes`
(App.js line 163), and the editor handles save/cancel only while it is
rendered, i.e. when `selectedNote` is found or `isCreatingNew` is set
(App.js line 212). -/
def step (st : AppState) : UIEvent → AppState
  | .searchChange s => handleSearchChange st s
  | .createClick => handleCreateNoteClick st
  | .selectItem i =>
    match (filteredNotes st.notes st.search)[i]? with
    | some n => handleSelectNote st n.id
    | none => st
  | .deleteItem i confirmed =>
    match (filteredNotes st.notes st.search)[i]? with
    | some n => handleDeleteNote st n.id confirmed
    | none => st
  | .saveClick t c newId now =>
    if (selectedNote st).isSome || st.isCreatingNew then
      (editorSave st t c newId now).1
    else st
  | .cancelClick =>
    if (selectedNote st).isSome || st.isCreatingNew then handleCancelEdit st
    else st

/-- The `App` component's initial state (App.js lines 23-33): the loaded
notes, an empty query, no selection, not creating. -/
def initState (loaded : List Note) : AppState :=
  { notes := loaded, search := "", selectedNoteId := none,
    isCreatingNew := false }

/-- The selection-state invariant: the creating-new flag and a non-null
selected id are never set simultaneously, and a selected id always names
a note present in the collection — so the UI is in exactly one of the
three cases {no selection}, {selected existing note}, {creating new}. -/
def SelectionInv (st : AppState) : Prop :=
  (st.isCreatingNew = true → st.selectedNoteId = none) ∧
  (∀ i, st.selectedNoteId = some i → ∃ n ∈ st.notes, n.id = i)

/-- Lowercase hex digit for a value below 16, as `JSON.stringify` emits in
`\u00XX` escapes. -/
def hexDigit : Nat → Char
  | 0 => '0' | 1 => '1' | 2 => '2' | 3 => '3' | 4 => '4'
  | 5 => '5' | 6 => '6' | 7 => '7' | 8 => '8' | 9 => '9'
  | 10 => 'a' | 11 => 'b' | 12 => 'c' | 13 => 'd' | 14 => 'e' | 15 => 'f'
  | _ => '0'

/-- Value of a hex digit, either case, as `JSON.parse` accepts. -/
def hexVal (c : Char) : Option Nat :=
  if c = '0' then some 0 else if c = '1' then some 1
  else if c = '2' then some 2 else if c = '3' then some 3
  else if c = '4' then some 4 else if c = '5' then some 5
  else if c = '6' then some 6 else if c = '7' then some 7
  else if c = '8' then some 8 else if c = '9' then some 9
  else if c = 'a' then some 10 else if c = 'b' then some 11
  else if c = 'c' then some 12 else if c = 'd' then some 13
  else if c = 'e' then some 14 else if c = 'f' then some 15
  else if c = 'A' then some 10 else if c = 'B' then some 11
  else if c = 'C' then some 12 else if c = 'D' then some 13
  else if c = 'E' then some 14 else if c = 'F' then some 15
  else none

/-- One character of JSON string escaping, as ECMA-262 `QuoteJSONString`
(used by `JSON.stringify`) emits it: quote and backslash get a backslash
escape, the control characters with short escapes use them, the other
control characters use `\u00XX`, and everything else appears verbatim. -/
def escChar (c : Char) : List Char :=
  if c = '"' then ['\\', '"']
  else if c = '\\' then ['\\', '\\']
  else if c = Char.ofNat 0x8 then ['\\', 'b']
  else if c = '\t' then ['\\', 't']
  else if c = '\n' then ['\\', 'n']
  else if c = Char.ofNat 0xC then ['\\', 'f']
  else if c = '\r' then ['\\', 'r']
  else if c.toNat < 0x20 then
    ['\\', 'u', '0', '0', hexDigit (c.toNat / 16), hexDigit (c.toNat % 16)]
  else [c]

/-- JSON escaping of a whole character sequence. -/
def escStr : List Char → List Char
  | [] => []
  | c :: cs => escChar c ++ escStr cs

/-- The character a single-letter JSON escape (`\"`, `\\`, `\/`, `\b`,
`\f`, `\n`, `\r`, `\t`) stands for. -/
def escCode (e : Char) : Option Char :=
  if e = '"' then some '"'
  else if e = '\\' then some '\\'
  else if e = '/' then some '/'
  else if e = 'b' then some (Char.ofNat 0x8)
  else if e = 'f' then some (Char.ofNat 0xC)
  else if e = 'n' then some '\n'
  else if e = 'r' then some '\r'
  else if e = 't' then some '\t'
  else none

/-- JSON string-literal body parser, entered after the opening quote:
returns the decoded characters and the input after the closing quote.
As in `JSON.parse`, raw control characters are rejected and escapes are
decoded; `\uXXXX` escapes denoting surrogate halves are rejected (a Lean
`Char` cannot hold them; the serializer never emits them, since it
`\u`-escapes only control characters). -/
def parseStrBody : List Char → Option (List Char × List Char)
  | [] => none
  | c :: rest =>
    if c = '"' then some ([], rest)
    else if c = '\\' then
      match rest with
      | [] => none
      | e :: rest2 =>
        if e = 'u' then
          match rest2 with
          | h1 :: h2 :: h3 :: h4 :: rest3 =>
            match hexVal h1, hexVal h2, hexVal h3, hexVal h4 with
            | some v1, some v2, some v3, some v4 =>
              if ((v1 * 16 + v2) * 16 + v3) * 16 + v4 < 0xD800 then
                match parseStrBody rest3 with
                | some (s, r) =>
                  some (Char.ofNat (((v1 * 16 + v2) * 16 + v3) * 16 + v4)
                    :: s, r)
                | none => none
              else none
            | _, _, _, _ => none
          | _ => none
        else
          match escCode e with
          | some d =>
            match parseStrBody rest2 with
            | some (s, r) => some (d :: s, r)
            | none => none
          | none => none
    else if c.toNat < 0x20 then none
    else
      match parseStrBody rest with
      | some (s, r) => some (c :: s, r)
      | none => none

/-- Literal matcher: consume an expected run of characters. -/
def dropLit : List Char → List Char → Option (List Char)
  | [], input => some input
  | _ :: _, [] => none
  | l :: ls, c :: cs => if c = l then dropLit ls cs else none

/-- Modelled from the spec (§6, persisted snapshot): the encoding
`JSON.stringify` produces for one note object — the fields `id`, `title`,
`content`, `created` and, only when present, `updated`, in insertion
order, each value a JSON string literal.  `JSON.stringify` is a host
builtin, not repository code. -/
def serNote (n : Note) : List Char :=
  "\x7b\"id\":\"".data ++ escStr n.id.data
    ++ "\",\"title\":\"".data ++ escStr n.title.data
    ++ "\",\"content\":\"".data ++ escStr n.content.data
    ++ "\",\"created\":\"".data ++ escStr n.created.data
    ++ (match n.updated with
        | none => "\"\x7d".data
        | some u => "\",\"updated\":\"".data ++ escStr u.data ++ "\"\x7d".data)

/-- The comma-separated items of the serialized array. -/
def serItems : List Note → List Char
  | [] => []
  | [n] => serNote n
  | n :: m :: ms => serNote n ++ ',' :: serItems (m :: ms)

/-- Modelled from the spec (§6): `JSON.stringify` of the whole collection,
a JSON array of the note objects. -/
def serializeNotes (ns : List Note) : String :=
  ⟨'[' :: serItems ns ++ "]".data⟩

/-- Parser for one serialized note object, mirroring the grammar the
serializer emits (which is the only shape `JSON.parse` ever receives from
this application's snapshot writer). -/
def parseNote (l : List Char) : Option (Note × List Char) :=
  match dropLit "\x7b\"id\":\"".data l with
  | none => none
  | some l1 =>
  match parseStrBody l1 with
  | none => none
  | some (idC, l2) =>
  match dropLit ",\"title\":\"".data l2 with
  | none => none
  | some l3 =>
  match parseStrBody l3 with
  | none => none
  | some (titleC, l4) =>
  match dropLit ",\"content\":\"".data l4 with
  | none => none
  | some l5 =>
  match parseStrBody l5 with
  | none => none
  | some (contentC, l6) =>
  match dropLit ",\"created\":\"".data l6 with
  | none => none
  | some l7 =>
  match parseStrBody l7 with
  | none => none
  | some (createdC, l8) =>
  match dropLit "\x7d".data l8 with
  | some r =>
    some ({ id := ⟨idC⟩, title := ⟨titleC⟩, content := ⟨contentC⟩,
            created := ⟨createdC⟩, updated := none }, r)
  | none =>
  match dropLit ",\"updated\":\"".data l8 with
  | none => none
  | some l9 =>
  match parseStrBody l9 with
  | none => none
  | some (updC, l10) =>
  match dropLit "\x7d".data l10 with
  | none => none
  | some r =>
    some ({ id := ⟨idC⟩, title := ⟨titleC⟩, content := ⟨contentC⟩,
            created := ⟨createdC⟩, updated := some ⟨updC⟩ }, r)

/-- Parser for the comma-separated note objects of the array; the fuel
bounds the number of items and is instantiated with the input length. -/
def parseItems : Nat → List Char → Option (List Note × List Char)
  | 0, _ => none
  | fuel + 1, l =>
    match parseNote l with
    | none => none
    | some (n, l1) =>
      match l1 with
      | ',' :: l2 =>
        match parseItems fuel l2 with
        | some (ns, l3) => some (n :: ns, l3)
        | none => none
      | _ => some ([n], l1)

/-- Modelled from the spec (§6): `JSON.parse` restricted to the snapshot
grammar this application writes — `[]` or a bracketed, comma-separated
run of note objects, with nothing trailing. -/
def parseNotes (s : String) : Option (List Note) :=
  match dropLit "[".data s.data with
  | none => none
  | some l =>
    match dropLit "]".data l with
    | some r => if r = [] then some [] else none
    | none =>
      match parseItems (l.length + 1) l with
      | none => none
      | some (ns, l1) =>
        match dropLit "]".data l1 with
        | none => none
        | some r => if r = [] then some ns else none

/-- The `notes` state initializer (App.js lines 23-27):
`saved ? JSON.parse(saved) : []`, where `saved` is
`window.localStorage.getItem("notes")` (`none` when the key is missing).
A missing key — or an empty stored string, which is falsy — yields `[]`;
otherwise the text is parsed, and an unparseable text raises an uncaught
`SyntaxError`, modelled as `Except.error`. -/
def loadNotes (stored : Option String) : Except String (List Note) :=
  match stored with
  | none => Except.ok []
  | some s =>
    if s = "" then Except.ok []
    else
      match parseNotes s with
      | some ns => Except.ok ns
      | none => Except.error "SyntaxError: Unexpected token in JSON"

/-- C1: saving from `CreatingNew` with at least one non-empty trimmed field
prepends exactly one new note (trimmed title/content, the freshly generated
id, `created` = now, no `updated`), leaves all pre-existing notes unchanged,
and sets the selection to the new note's id. -/
theorem create_prepends_new_note (st : AppState) (t c newId now : String)
    (hnew : st.isCreatingNew = true)
    (hval : ¬(trimJs t = "" ∧ trimJs c = "")) :
    (editorSave st t c newId now).1.notes =
      { id := newId, title := trimJs t, content := trimJs c,
        created := now, updated := none } :: st.notes ∧
    (editorSave st t c newId now).1.selectedNoteId = some newId ∧
    (editorSave st t c newId now).1.isCreatingNew = false ∧
    (editorSave st t c newId now).1.search = st.search := by
  have hcond : ¬((trimJs t == "" && trimJs c == "") = true) := by
    simpa [Bool.and_eq_true, beq_iff_eq] using hval
  simp [editorSave, hcond, handleSaveNote, hnew]

/-- Witness for `create_prepends_new_note` at the spec's example inputs. -/
theorem create_prepends_new_note_witness :
    (editorSave
        { notes := [], search := "", selectedNoteId := none,
          isCreatingNew := true } "Groceries" "milk, eggs" "id1" "T1").1.notes =
      { id := "id1", title := trimJs "Groceries", content := trimJs "milk, eggs",
        created := "T1", updated := none } ::
        ({ notes := [], search := "", selectedNoteId := none,
           isCreatingNew := true } : AppState).notes ∧
    (editorSave
        { notes := [], search := "", selectedNoteId := none,
          isCreatingNew := true } "Groceries" "milk, eggs" "id1"
        "T1").1.selectedNoteId = some "id1" ∧
    (editorSave
        { notes := [], search := "", selectedNoteId := none,
          isCreatingNew := true } "Groceries" "milk, eggs" "id1"
        "T1").1.isCreatingNew = false ∧
    (editorSave
        { notes := [], search := "", selectedNoteId := none,
          isCreatingNew := true } "Groceries" "milk, eggs" "id1"
        "T1").1.search =
      ({ notes := [], search := "", selectedNoteId := none,
         isCreatingNew := true } : AppState).search :=
  create_prepends_new_note _ "Groceries" "milk, eggs" "id1" "T1" rfl
    (by decide)

/-- C2: when both staged fields trim to empty, save is rejected: the alert
is raised and the whole state (collection, selection, editor mode, query)
is returned unchanged, so nothing is persisted. -/
theorem save_rejects_empty (st : AppState) (t c newId now : String)
    (ht : trimJs t = "") (hc : trimJs c = "") :
    editorSave st t c newId now = (st, some "Cannot save empty note!") := by
  simp [editorSave, ht, hc]

/-- Witness for `save_rejects_empty` at the spec's example
`title = "   "`, `content = ""`. -/
theorem save_rejects_empty_witness :
    editorSave
        { notes := [], search := "", selectedNoteId := none,
          isCreatingNew := true } "   " "" "id1" "T1" =
      ({ notes := [], search := "", selectedNoteId := none,
         isCreatingNew := true }, some "Cannot save empty note!") :=
  save_rejects_empty _ "   " "" "id1" "T1" (by decide) rfl

/-- C10: saving while not creating and with no note matching the selected
id (`selectedNote` finds nothing) is a silent no-op: `handleSaveNote`
returns the state unchanged and raises no error. -/
theorem save_missing_id_noop (st : AppState) (e : Edited) (newId now : String)
    (hnew : st.isCreatingNew = false) (hsel : selectedNote st = none) :
    handleSaveNote st e newId now = st := by
  simp [handleSaveNote, hnew, hsel]

/-- Witness for `save_missing_id_noop`: a dangling selected id over a
non-empty collection. -/
theorem save_missing_id_noop_witness :
    handleSaveNote
      { notes := [{ id := "a", title := "t", content := "c",
                    created := "T0", updated := none }],
        search := "", selectedNoteId := some "z", isCreatingNew := false }
      { title := "x", content := "y" } "id9" "T9" =
      { notes := [{ id := "a", title := "t", content := "c",
                    created := "T0", updated := none }],
        search := "", selectedNoteId := some "z", isCreatingNew := false } :=
  save_missing_id_noop _ _ "id9" "T9" rfl (by decide)

theorem leadsList_iff (a b : List Char) :
    leadsList a b = true ↔ ∃ post, b = a ++ post := by
  induction a generalizing b with
  | nil => simp [leadsList]
  | cons x xs ih =>
    cases b with
    | nil => simp [leadsList]
    | cons y ys =>
      simp only [leadsList, Bool.and_eq_true, decide_eq_true_eq, ih]
      constructor
      · rintro ⟨rfl, post, rfl⟩
        exact ⟨post, rfl⟩
      · rintro ⟨post, h⟩
        rw [List.cons_append] at h
        injection h with h1 h2
        exact ⟨h1.symm, post, h2⟩

theorem occursIn_iff (n h : List Char) :
    occursIn n h = true ↔ SubstringOf n h := by
  induction h with
  | nil =>
    simp only [occursIn, decide_eq_true_eq, SubstringOf]
    constructor
    · rintro rfl
      exact ⟨[], [], rfl⟩
    · rintro ⟨pre, post, hh⟩
      rcases List.append_eq_nil.mp hh.symm with ⟨h1, h2⟩
      rcases List.append_eq_nil.mp h1 with ⟨_, h3⟩
      exact h3
  | cons y ys ih =>
    simp only [occursIn, Bool.or_eq_true, leadsList_iff, ih, SubstringOf]
    constructor
    · rintro (⟨post, hh⟩ | ⟨pre, post, rfl⟩)
      · exact ⟨[], post, by simpa using hh⟩
      · exact ⟨y :: pre, post, rfl⟩
    · rintro ⟨pre, post, hh⟩
      cases pre with
      | nil =>
        left
        exact ⟨post, by simpa using hh⟩
      | cons p ps =>
        right
        rw [List.cons_append, List.cons_append] at hh
        injection hh with h1 h2
        exact ⟨ps, post, by rw [h2, List.append_assoc]⟩

/-- C3: `filteredNotes` is the order-preserving subsequence of the input
made of exactly those notes whose lowercased `title ++ " " ++ content`
contains the lowercased query as a substring, and the empty query returns
the input unchanged. -/
theorem filteredNotes_characterization (ns : List Note) (q : String) :
    List.Sublist (filteredNotes ns q) ns ∧
    (∀ n, n ∈ filteredNotes ns q ↔
      n ∈ ns ∧ SubstringOf (toLowerJs q).data
        (toLowerJs (n.title ++ " " ++ n.content)).data) ∧
    filteredNotes ns "" = ns := by
  refine ⟨List.filter_sublist ns, fun n => ?_, ?_⟩
  · rw [filteredNotes, List.mem_filter, strIncludes, occursIn_iff]
  · rw [filteredNotes]
    apply List.filter_eq_self.mpr
    intro n _
    rw [strIncludes, occursIn_iff]
    exact ⟨(toLowerJs (n.title ++ " " ++ n.content)).data, [], by simp [toLowerJs]⟩

theorem find?_middle (pre post : List Note) (n : Note) (p : Note → Bool)
    (hpre : ∀ m ∈ pre, p m = false) (hn : p n = true) :
    (pre ++ n :: post).find? p = some n := by
  induction pre with
  | nil => simp [List.find?_cons, hn]
  | cons a as ih =>
    have ha := hpre a (by simp)
    rw [List.cons_append, List.find?_cons, ha]
    exact ih fun m hm => hpre m (by simp [hm])

theorem map_fix_all (l : List Note) (f : Note → Note)
    (h : ∀ m ∈ l, f m = m) : l.map f = l := by
  induction l with
  | nil => rfl
  | cons a as ih =>
    rw [List.map_cons, h a (by simp), ih fun m hm => h m (by simp [hm])]

/-- C4: a successful update of the uniquely-identified selected note
replaces exactly that note's title and content with the trimmed staged
values and stamps `updated`; its id, `created` and position are untouched,
every other note is untouched, and selection/search/mode are untouched. -/
theorem update_in_place (st : AppState) (pre post : List Note) (n : Note)
    (t c newId now : String)
    (hnew : st.isCreatingNew = false)
    (hnotes : st.notes = pre ++ n :: post)
    (hsel : st.selectedNoteId = some n.id)
    (hpre : ∀ m ∈ pre, m.id ≠ n.id)
    (hpost : ∀ m ∈ post, m.id ≠ n.id)
    (hval : ¬(trimJs t = "" ∧ trimJs c = "")) :
    (editorSave st t c newId now).1 =
      { st with notes := pre ++
          { n with title := trimJs t, content := trimJs c,
                   updated := some now } :: post } := by
  have hcond : ¬((trimJs t == "" && trimJs c == "") = true) := by
    simpa [Bool.and_eq_true, beq_iff_eq] using hval
  have hfind : selectedNote st = some n := by
    rw [selectedNote, hnotes]
    apply find?_middle
    · intro m hm
      simpa [hsel] using hpre m hm
    · simp [hsel]
  rw [editorSave, if_neg hcond]
  rw [handleSaveNote, if_neg (by simp [hnew]), hfind]
  have hmap :
      st.notes.map (fun m =>
          if some m.id == st.selectedNoteId then
            { m with title := trimJs t, content := trimJs c,
                     updated := some now }
          else m) =
        pre ++ { n with title := trimJs t, content := trimJs c,
                        updated := some now } :: post := by
    rw [hnotes, List.map_append, List.map_cons]
    have h1 : pre.map (fun m =>
        if some m.id == st.selectedNoteId then
          { m with title := trimJs t, content := trimJs c,
                   updated := some now }
        else m) = pre := by
      apply map_fix_all
      intro m hm
      rw [if_neg (by simpa [hsel] using hpre m hm)]
    have h2 : post.map (fun m =>
        if some m.id == st.selectedNoteId then
          { m with title := trimJs t, content := trimJs c,
                   updated := some now }
        else m) = post := by
      apply map_fix_all
      intro m hm
      rw [if_neg (by simpa [hsel] using hpost m hm)]
    rw [h1, h2, if_pos (by simp [hsel])]
  simp only [hmap]

/-- Witness for `update_in_place`: updating the spec's example note. -/
theorem update_in_place_witness :
    (editorSave
        { notes := [{ id := "a", title := "Groceries", content := "milk, eggs",
                      created := "T0", updated := none }],
          search := "", selectedNoteId := some "a", isCreatingNew := false }
        "Groceries" "milk, eggs, bread" "id9" "T9").1 =
      { notes := [{ id := "a", title := trimJs "Groceries",
                    content := trimJs "milk, eggs, bread",
                    created := "T0", updated := some "T9" }],
        search := "", selectedNoteId := some "a", isCreatingNew := false } :=
  update_in_place
    { notes := [{ id := "a", title := "Groceries", content := "milk, eggs",
                  created := "T0", updated := none }],
      search := "", selectedNoteId := some "a", isCreatingNew := false }
    [] []
    { id := "a", title := "Groceries", content := "milk, eggs",
      created := "T0", updated := none }
    "Groceries" "milk, eggs, bread" "id9" "T9"
    rfl rfl rfl (by simp) (by simp) (by decide)

/-- C5 counterexample: the claim says a confirmed delete of an id absent
from the collection leaves the entire state unchanged, but from a state in
creating-new mode the handler still clears the `isCreatingNew` flag. -/
theorem delete_absent_changes_state :
    handleDeleteNote
      { notes := [], search := "", selectedNoteId := none,
        isCreatingNew := true } "x" true ≠
      { notes := [], search := "", selectedNoteId := none,
        isCreatingNew := true } := by
  decide

/-- C5 (amended): a declined delete changes nothing; a confirmed delete of
a uniquely-present id removes exactly that note (others keep order),
clears the selection when it pointed at that id, and leaves creating-new
mode; a confirmed delete of an absent id leaves the collection and the
search unchanged, clears the selection only if it pointed at that id, and
also leaves creating-new mode. -/
theorem delete_characterization (st : AppState) (noteId : String) :
    (handleDeleteNote st noteId false = st) ∧
    (∀ pre n post, st.notes = pre ++ n :: post → n.id = noteId →
      (∀ m ∈ pre, m.id ≠ noteId) → (∀ m ∈ post, m.id ≠ noteId) →
      handleDeleteNote st noteId true =
        { st with
          notes := pre ++ post,
          selectedNoteId :=
            if st.selectedNoteId = some noteId then none
            else st.selectedNoteId,
          isCreatingNew := false }) ∧
    ((∀ m ∈ st.notes, m.id ≠ noteId) →
      handleDeleteNote st noteId true =
        { st with
          selectedNoteId :=
            if st.selectedNoteId = some noteId then none
            else st.selectedNoteId,
          isCreatingNew := false }) := by
  refine ⟨by simp [handleDeleteNote], ?_, ?_⟩
  · intro pre n post hnotes hid hpre hpost
    rw [handleDeleteNote, if_pos rfl]
    have hfilter : st.notes.filter (fun m => m.id != noteId) = pre ++ post := by
      rw [hnotes, List.filter_append, List.filter_cons]
      rw [if_neg (by simp [hid])]
      rw [List.filter_eq_self.mpr (by intro m hm; simpa using hpre m hm),
        List.filter_eq_self.mpr (by intro m hm; simpa using hpost m hm)]
    rw [hfilter]
  · intro habsent
    rw [handleDeleteNote, if_pos rfl]
    rw [List.filter_eq_self.mpr (by intro m hm; simpa using habsent m hm)]

/-- Witness for `delete_characterization`: a concrete declined delete, a
confirmed delete of the selected note, and a confirmed delete of an
absent id. -/
theorem delete_characterization_witness :
    (handleDeleteNote
        { notes := [{ id := "a", title := "t", content := "c",
                      created := "T0", updated := none }],
          search := "", selectedNoteId := some "a", isCreatingNew := false }
        "a" false =
      { notes := [{ id := "a", title := "t", content := "c",
                    created := "T0", updated := none }],
        search := "", selectedNoteId := some "a", isCreatingNew := false }) ∧
    (handleDeleteNote
        { notes := [{ id := "a", title := "t", content := "c",
                      created := "T0", updated := none }],
          search := "", selectedNoteId := some "a", isCreatingNew := false }
        "a" true =
      { notes := ([] : List Note) ++ ([] : List Note),
        search := "",
        selectedNoteId :=
          if (some "a" : Option String) = some "a" then none else some "a",
        isCreatingNew := false }) ∧
    (handleDeleteNote
        { notes := [{ id := "a", title := "t", content := "c",
                      created := "T0", updated := none }],
          search := "", selectedNoteId := some "a", isCreatingNew := false }
        "z" true =
      { notes := [{ id := "a", title := "t", content := "c",
                    created := "T0", updated := none }],
        search := "",
        selectedNoteId :=
          if (some "a" : Option String) = some "z" then none else some "a",
        isCreatingNew := false }) :=
  ⟨(delete_characterization _ "a").1,
   (delete_characterization
       { notes := [{ id := "a", title := "t", content := "c",
                     created := "T0", updated := none }],
         search := "", selectedNoteId := some "a", isCreatingNew := false }
       "a").2.1 [] _ [] rfl rfl (by simp) (by simp),
   (delete_characterization
       { notes := [{ id := "a", title := "t", content := "c",
                     created := "T0", updated := none }],
         search := "", selectedNoteId := some "a", isCreatingNew := false }
       "z").2.2 (by decide)⟩

/-- C8 counterexample: id generation is not collision-free.  Two distinct
calls can return the same id: `Date.now() = 100` with random suffix
`"0abcdefg"` and `Date.now() = 1000` with random suffix `"abcdefg"` both
yield `"1000abcdefg"` (and two calls within the same millisecond collide
whenever `Math.random` repeats). -/
theorem generateId_collision :
    ¬ (idsOf [(100, "0abcdefg"), (1000, "abcdefg")]).Nodup := by
  decide

/-- C8 (amended): an id is the decimal millisecond timestamp concatenated
with the random suffix, so two ids generated at the same timestamp differ
exactly when their random suffixes differ; uniqueness therefore rests on
the environment inputs and is not guaranteed by the generator itself. -/
theorem generateId_same_time_inj (t : Nat) (r₁ r₂ : String) :
    generateId t r₁ = generateId t r₂ ↔ r₁ = r₂ := by
  constructor
  · intro h
    have hd := congrArg String.data h
    simp only [generateId, String.data_append] at hd
    exact String.ext (List.append_cancel_left hd)
  · rintro rfl
    rfl

theorem selectionInv_step (st : AppState) (e : UIEvent)
    (h : SelectionInv st) : SelectionInv (step st e) := by
  obtain ⟨hmx, hwf⟩ := h
  cases e with
  | searchChange s => exact ⟨hmx, hwf⟩
  | createClick =>
    exact ⟨fun _ => rfl, fun i hi => Option.noConfusion hi⟩
  | selectItem i =>
    cases hget : (filteredNotes st.notes st.search)[i]? with
    | none =>
      have hstep : step st (.selectItem i) = st := by simp [step, hget]
      rw [hstep]
      exact ⟨hmx, hwf⟩
    | some n =>
      have hstep : step st (.selectItem i) = handleSelectNote st n.id := by
        simp [step, hget]
      rw [hstep]
      refine ⟨fun hc => by simp [handleSelectNote] at hc, fun j hj => ?_⟩
      have hjn : n.id = j := by
        simpa [handleSelectNote] using hj
      have hn : n ∈ st.notes :=
        (List.filter_sublist st.notes).subset (List.getElem?_mem hget)
      exact ⟨n, hn, hjn⟩
  | deleteItem i conf =>
    cases hget : (filteredNotes st.notes st.search)[i]? with
    | none =>
      have hstep : step st (.deleteItem i conf) = st := by simp [step, hget]
      rw [hstep]
      exact ⟨hmx, hwf⟩
    | some n =>
      have hstep : step st (.deleteItem i conf) =
          handleDeleteNote st n.id conf := by
        simp [step, hget]
      rw [hstep]
      cases conf with
      | false =>
        have hd : handleDeleteNote st n.id false = st := by
          simp [handleDeleteNote]
        rw [hd]
        exact ⟨hmx, hwf⟩
      | true =>
        have hd : handleDeleteNote st n.id true =
            { st with
              notes := st.notes.filter fun m => m.id != n.id,
              selectedNoteId :=
                if st.selectedNoteId = some n.id then none
                else st.selectedNoteId,
              isCreatingNew := false } := by
          simp [handleDeleteNote]
        rw [hd]
        refine ⟨fun hc => by simp at hc, fun j hj => ?_⟩
        simp only at hj
        by_cases hs : st.selectedNoteId = some n.id
        · rw [if_pos hs] at hj
          exact Option.noConfusion hj
        · rw [if_neg hs] at hj
          obtain ⟨m, hm, hmid⟩ := hwf j hj
          refine ⟨m, List.mem_filter.mpr ⟨hm, ?_⟩, hmid⟩
          simp only [bne_iff_ne, ne_eq]
          intro hmn
          have hjn : j = n.id := by rw [← hmid, hmn]
          exact hs (by rw [hj, hjn])
  | saveClick t c newId now =>
    by_cases hopen : ((selectedNote st).isSome || st.isCreatingNew) = true
    · have hstep : step st (.saveClick t c newId now) =
          (editorSave st t c newId now).1 := by
        simp [step, hopen]
      rw [hstep, editorSave]
      by_cases hval : (trimJs t == "" && trimJs c == "") = true
      · rw [if_pos hval]
        exact ⟨hmx, hwf⟩
      · rw [if_neg hval]
        simp only
        rw [handleSaveNote]
        by_cases hcn : st.isCreatingNew = true
        · rw [if_pos hcn]
          refine ⟨fun hc => by simp at hc, fun j hj => ?_⟩
          simp only at hj
          refine ⟨{ id := newId, title := trimJs t, content := trimJs c,
                    created := now, updated := none }, by simp, ?_⟩
          exact (by simpa using hj : newId = j)
        · rw [if_neg hcn]
          cases hfind : selectedNote st with
          | none => exact ⟨hmx, hwf⟩
          | some m0 =>
            simp only
            refine ⟨fun hc => absurd hc hcn, fun j hj => ?_⟩
            simp only at hj
            obtain ⟨m, hm, hmid⟩ := hwf j hj
            refine ⟨_, List.mem_map_of_mem _ hm, ?_⟩
            by_cases hmsel : (some m.id == st.selectedNoteId) = true
            · rw [if_pos hmsel]
              exact hmid
            · rw [if_neg hmsel]
              exact hmid
    · have hstep : step st (.saveClick t c newId now) = st := by
        simp only [step, if_neg hopen]
      rw [hstep]
      exact ⟨hmx, hwf⟩
  | cancelClick =>
    by_cases hopen : ((selectedNote st).isSome || st.isCreatingNew) = true
    · have hstep : step st .cancelClick = handleCancelEdit st := by
        simp [step, hopen]
      rw [hstep]
      exact ⟨fun _ => rfl, fun i hi => Option.noConfusion hi⟩
    · have hstep : step st .cancelClick = st := by
        simp only [step, if_neg hopen]
      rw [hstep]
      exact ⟨hmx, hwf⟩

/-- C9: in every state reachable from startup through the UI's event
handlers, the creating-new flag and a non-null selected id are never set
at once, and a non-null selected id always refers to a note present in
the collection. -/
theorem selection_invariant_reachable (loaded : List Note)
    (evs : List UIEvent) :
    SelectionInv (evs.foldl step (initState loaded)) := by
  have hinit : SelectionInv (initState loaded) :=
    ⟨fun hc => rfl, fun i hi => Option.noConfusion hi⟩
  have main : ∀ (l : List UIEvent) (st : AppState), SelectionInv st →
      SelectionInv (l.foldl step st) := by
    intro l
    induction l with
    | nil => exact fun st hst => hst
    | cons e es ih => exact fun st hst => ih _ (selectionInv_step st e hst)
  exact main evs _ hinit

theorem hexVal_hexDigit : ∀ n : Nat, n < 16 → hexVal (hexDigit n) = some n := by
  decide

theorem dropLit_append : ∀ pat rest : List Char,
    dropLit pat (pat ++ rest) = some rest := by
  intro pat
  induction pat with
  | nil => intro rest; rfl
  | cons l ls ih =>
    intro rest
    rw [List.cons_append, dropLit, if_pos rfl]
    exact ih rest

theorem parseStrBody_escChar (c : Char) (tail : List Char) :
    parseStrBody (escChar c ++ tail) =
      match parseStrBody tail with
      | some (s, r) => some (c :: s, r)
      | none => none := by
  by_cases h1 : c = '"'
  · subst h1
    change parseStrBody ('\\' :: '"' :: tail) = _
    rw [parseStrBody.eq_def]
    rfl
  by_cases h2 : c = '\\'
  · subst h2
    change parseStrBody ('\\' :: '\\' :: tail) = _
    rw [parseStrBody.eq_def]
    rfl
  by_cases h3 : c = Char.ofNat 0x8
  · subst h3
    change parseStrBody ('\\' :: 'b' :: tail) = _
    rw [parseStrBody.eq_def]
    rfl
  by_cases h4 : c = '\t'
  · subst h4
    change parseStrBody ('\\' :: 't' :: tail) = _
    rw [parseStrBody.eq_def]
    rfl
  by_cases h5 : c = '\n'
  · subst h5
    change parseStrBody ('\\' :: 'n' :: tail) = _
    rw [parseStrBody.eq_def]
    rfl
  by_cases h6 : c = Char.ofNat 0xC
  · subst h6
    change parseStrBody ('\\' :: 'f' :: tail) = _
    rw [parseStrBody.eq_def]
    rfl
  by_cases h7 : c = '\r'
  · subst h7
    change parseStrBody ('\\' :: 'r' :: tail) = _
    rw [parseStrBody.eq_def]
    rfl
  by_cases h8 : c.toNat < 0x20
  · have hdiv : hexVal (hexDigit (c.toNat / 16)) = some (c.toNat / 16) :=
      hexVal_hexDigit _ (by omega)
    have hmod : hexVal (hexDigit (c.toNat % 16)) = some (c.toNat % 16) :=
      hexVal_hexDigit _ (Nat.mod_lt _ (by decide))
    rw [escChar, if_neg h1, if_neg h2, if_neg h3, if_neg h4, if_neg h5,
      if_neg h6, if_neg h7, if_pos h8]
    change parseStrBody ('\\' :: 'u' :: '0' :: '0' ::
      hexDigit (c.toNat / 16) :: hexDigit (c.toNat % 16) :: tail) = _
    rw [parseStrBody.eq_def]
    simp only [ite_true]
    rw [if_neg (by decide : ¬ ('\\' : Char) = '"')]
    rw [show hexVal '0' = some 0 from rfl, hdiv, hmod]
    simp only []
    rw [show ((0 * 16 + 0) * 16 + c.toNat / 16) * 16 + c.toNat % 16 =
        c.toNat by omega]
    rw [if_pos (by omega : c.toNat < 55296), Char.ofNat_toNat]
  · rw [escChar, if_neg h1, if_neg h2, if_neg h3, if_neg h4, if_neg h5,
      if_neg h6, if_neg h7, if_neg h8]
    change parseStrBody (c :: tail) = _
    rw [parseStrBody.eq_def]
    simp only [List.cons.injEq]
    rw [if_neg h1, if_neg h2, if_neg h8]

theorem parseStrBody_escStr (s tail : List Char) :
    parseStrBody (escStr s ++ '"' :: tail) = some (s, tail) := by
  induction s with
  | nil =>
    change parseStrBody ('"' :: tail) = _
    rw [parseStrBody.eq_def]
    rfl
  | cons c cs ih =>
    rw [escStr, List.append_assoc, parseStrBody_escChar, ih]

theorem parseNote_serNote (n : Note) (rest : List Char) :
    parseNote (serNote n ++ rest) = some (n, rest) := by
  obtain ⟨nid, ntitle, ncontent, ncreated, nupd⟩ := n
  cases nupd with
  | none =>
    simp [serNote, parseNote, dropLit, parseStrBody_escStr]
  | some u =>
    simp [serNote, parseNote, dropLit, parseStrBody_escStr]

theorem serNote_length_pos (n : Note) : 1 ≤ (serNote n).length := by
  cases h : n.updated <;> simp [serNote, h, List.length_append]

theorem serItems_length : ∀ ns : List Note, ns.length ≤ (serItems ns).length
  | [] => by simp [serItems]
  | [n] => by
    have := serNote_length_pos n
    simp [serItems]
    omega
  | n :: m :: ms => by
    have h1 := serNote_length_pos n
    have ih := serItems_length (m :: ms)
    simp [serItems, List.length_append]
    simp at ih
    omega

theorem parseItems_serItems (ns : List Note) :
    ∀ (n : Note) (fuel : Nat) (rest : List Char), ns.length < fuel →
    parseItems fuel (serItems (n :: ns) ++ ']' :: rest) =
      some (n :: ns, ']' :: rest) := by
  induction ns with
  | nil =>
    intro n fuel rest hf
    cases fuel with
    | zero => omega
    | succ f =>
      rw [show serItems [n] = serNote n from rfl]
      simp only [parseItems]
      rw [parseNote_serNote]
      rfl
  | cons m ms ih =>
    intro n fuel rest hf
    cases fuel with
    | zero => omega
    | succ f =>
      rw [show serItems (n :: m :: ms) ++ ']' :: rest =
        serNote n ++ (',' :: (serItems (m :: ms) ++ ']' :: rest)) by
          simp [serItems, List.append_assoc]]
      simp only [parseItems]
      rw [parseNote_serNote]
      simp only []
      rw [ih m f rest (by simpa using Nat.lt_of_succ_lt_succ hf)]

/-- C7: parsing the persisted encoding of any note collection returns an
equal collection: same notes, same order, same values for `id`, `title`,
`content`, `created` and `updated`. -/
theorem serialize_parse_round_trip (ns : List Note) :
    parseNotes (serializeNotes ns) = some ns := by
  cases ns with
  | nil => rfl
  | cons n tail =>
    have hlb : dropLit "[".data (serializeNotes (n :: tail)).data =
        some (serItems (n :: tail) ++ ']' :: []) := rfl
    have hrb : dropLit "]".data (serItems (n :: tail) ++ ']' :: []) =
        none := by
      cases tail <;> rfl
    have hfuel : tail.length <
        (serItems (n :: tail) ++ ']' :: []).length + 1 := by
      have h := serItems_length (n :: tail)
      simp only [List.length_append, List.length_cons] at *
      omega
    simp only [parseNotes, hlb, hrb]
    rw [parseItems_serItems tail n _ [] hfuel]
    rfl

/-- C6 counterexample: the claim says unparseable stored contents yield
the empty collection without a fatal error, but the initializer has no
error handling: parsing the stored text `"garbage"` raises an uncaught
`SyntaxError`, and the result is not the empty collection. -/
theorem load_unparseable_is_fatal :
    loadNotes (some "garbage") =
      Except.error "SyntaxError: Unexpected token in JSON" ∧
    loadNotes (some "garbage") ≠ Except.ok ([] : List Note) := by
  constructor
  · rfl
  · intro h
    rw [show loadNotes (some "garbage") =
      Except.error "SyntaxError: Unexpected token in JSON" from rfl] at h
    exact Except.noConfusion h

/-- C6 (amended): the snapshot is read in the state initializer: a
missing key — or an empty stored string, which is falsy — yields the
empty collection; a parseable snapshot yields its notes; but an
unparseable non-empty snapshot raises an uncaught parse error rather
than falling back to the empty collection. -/
theorem loadNotes_characterization :
    loadNotes none = Except.ok [] ∧
    loadNotes (some "") = Except.ok [] ∧
    (∀ s ns, s ≠ "" → parseNotes s = some ns →
      loadNotes (some s) = Except.ok ns) ∧
    (∀ s, s ≠ "" → parseNotes s = none →
      loadNotes (some s) =
        Except.error "SyntaxError: Unexpected token in JSON") := by
  refine ⟨rfl, rfl, ?_, ?_⟩
  · intro s ns hne hp
    simp [loadNotes, hne, hp]
  · intro s hne hp
    simp [loadNotes, hne, hp]

/-- Witness for `loadNotes_characterization` at concrete snapshots. -/
theorem loadNotes_characterization_witness :
    loadNotes (some "[]") = Except.ok [] ∧
    loadNotes (some "x") =
      Except.error "SyntaxError: Unexpected token in JSON" :=
  ⟨loadNotes_characterization.2.2.1 "[]" [] (by decide) rfl,
   loadNotes_characterization.2.2.2 "x" (by decide) rfl⟩
